import Mathlib

/-
Verification development for `sebs/code_package.py` (serverless-benchmarks).

Modelling conventions of the shallow embedding:
* The host filesystem is a value of type `FS`: a list of files, each holding
  its directory (as a list of path segments), its file name and its content,
  plus a list of directories created via `makedirs`.  `os.path.join(d, "..")`
  is modelled by `List.dropLast` on the segment list.
* File contents and digests are Lean `String`s.  `hashlib.md5` is abstracted
  injectively: the model's digest is the exact byte stream fed to
  `hash_sum.update` (the concatenation, in enumeration order, of the contents
  read).  Since md5 is a pure function of that stream, two model digests are
  equal exactly when the real md5 inputs are identical.
* External collaborators (Docker daemon, the init.sh subprocess, the JSON
  codec used for package.json, the deployment-build callback, system config
  tables) are parameters gathered in `World`; each call site of the source is
  mapped to one field.
* Side effects of `build()` are additionally recorded in a trace of `Event`s
  so that "step does not run" claims are statable.
-/

namespace SeBS

inductive Lang where
  | python
  | nodejs
deriving DecidableEq, Repr

/-- `Language.value` in the source: the language's directory name. -/
def Lang.value : Lang → String
  | .python => "python"
  | .nodejs => "nodejs"

structure File where
  dir : List String
  name : String
  content : String
deriving DecidableEq, Repr

structure FS where
  files : List File
  dirs : List (List String)
deriving DecidableEq, Repr

/-- Look up the content of file `n` in directory `d`. -/
def lookupF : List File → List String → String → Option String
  | [], _, _ => none
  | f :: rest, d, n =>
    if f.dir = d ∧ f.name = n then some f.content else lookupF rest d n

/-- Remove every file named `n` in directory `d`. -/
def eraseF : List File → List String → String → List File
  | [], _, _ => []
  | f :: rest, d, n =>
    if f.dir = d ∧ f.name = n then eraseF rest d n else f :: eraseF rest d n

def FS.readFile (fs : FS) (d : List String) (n : String) : Option String :=
  lookupF fs.files d n

def FS.fileExists (fs : FS) (d : List String) (n : String) : Bool :=
  (fs.readFile d n).isSome

def FS.eraseFile (fs : FS) (d : List String) (n : String) : FS :=
  { fs with files := eraseF fs.files d n }

/-- Create or overwrite a file (`open(.., "w")`, `shutil.copy2` target). -/
def FS.writeFile (fs : FS) (d : List String) (n : String) (c : String) : FS :=
  { fs with files := eraseF fs.files d n ++ [⟨d, n, c⟩] }

/-- Rename `src` to `dst` inside directory `d` (`os.rename`; overwrites the
destination as on POSIX).  `none` when the source file does not exist. -/
def FS.renameFile (fs : FS) (d : List String) (src dst : String) : Option FS :=
  match fs.readFile d src with
  | none => none
  | some c => some ((fs.eraseFile d src).writeFile d dst c)

def FS.dirExists (fs : FS) (d : List String) : Bool :=
  fs.dirs.contains d || fs.files.any (fun f => f.dir == d)

def FS.mkDir (fs : FS) (d : List String) : FS :=
  { fs with dirs := d :: fs.dirs }

/-- `shutil.rmtree`: drop the directory and everything below it. -/
def FS.rmTree (fs : FS) (d : List String) : FS :=
  { files := fs.files.filter (fun f => !(d.isPrefixOf f.dir)),
    dirs := fs.dirs.filter (fun d2 => !(d.isPrefixOf d2)) }

/-- Split a character list at its first `*`, when one is present. -/
def splitStar : List Char → Option (List Char × List Char)
  | [] => none
  | c :: rest =>
      if c = '*' then some ([], rest)
      else
        match splitStar rest with
        | some pr => some (c :: pr.1, pr.2)
        | none => none

/-- Shell glob matching for the pattern shapes the source uses: a literal
name, or a pattern with a single `*` wildcard (`*.py`, `requirements.txt*`). -/
def globMatch (pat name : String) : Bool :=
  match splitStar pat.toList with
  | none => name.toList == pat.toList
  | some pr =>
      if pr.2.contains '*' then false
      else
        pr.1.isPrefixOf name.toList && pr.2.isSuffixOf name.toList &&
          decide (pr.1.length + pr.2.length ≤ name.toList.length)

/-- `glob.glob(os.path.join(d, pat))`, in the fixed enumeration order of the
filesystem value (the source relies on the OS's glob order). -/
def FS.filesInDir (fs : FS) (d : List String) (pat : String) : List File :=
  fs.files.filter (fun f => f.dir == d && globMatch pat f.name)

/-- The `FILES` table of `hash_directory`. -/
def FILES : Lang → List String
  | .python => ["*.py", "requirements.txt*"]
  | .nodejs => ["*.js", "package.json"]

/-- The `WRAPPERS` table of `hash_directory`. -/
def WRAPPERS : Lang → String
  | .python => "*.py"
  | .nodejs => "*.js"

def NON_LANG_FILES : List String := ["*.sh", "*.json"]

/-- The list of file contents `hash_directory` feeds to the digest, in the
order the source reads them: language and generic files in `directory`, then
the optional `../definition.json`, then the deployment wrapper files. -/
def hashInputs (fs : FS) (directory : List String) (deployment : String)
    (language : Lang) : List String :=
  let selected_files := FILES language ++ NON_LANG_FILES
  let part1 :=
    selected_files.flatMap
      (fun pat => (fs.filesInDir directory pat).map (fun f => f.content))
  let part2 :=
    match fs.readFile directory.dropLast "definition.json" with
    | some c => [c]
    | none => []
  let wrappersDir := ["benchmarks", "wrappers", deployment, language.value]
  let part3 :=
    (fs.filesInDir wrappersDir (WRAPPERS language)).map (fun f => f.content)
  part1 ++ part2 ++ part3

/-- `CodePackage.hash_directory`: md5 over the concatenated contents,
abstracted as the concatenated input stream itself. -/
def hash_directory (fs : FS) (directory : List String) (deployment : String)
    (language : Lang) : String :=
  String.join (hashInputs fs directory deployment language)

structure CacheEntry where
  hash : String
  size : Nat
  location : String
deriving DecidableEq, Repr

/-- The `CodePackage` entity.  The experiment-config flags consulted by the
source (`config.update_code`, `check_flag("docker_copy_build_files")`) are
inlined as fields, as are the constructor-stored identifiers.  Fields with a
leading underscore back a property of the same name in the source. -/
structure CodePackage where
  name : String
  deployment_name : String
  language : Lang
  language_version : String
  path : List String
  output_dir : List String
  update_code : Bool
  docker_copy_build_files : Bool
  payload : Option CacheEntry
  is_cached : Bool
  is_cached_valid : Bool
  _code_location : String
  code_size : Nat
  _hash_value : Option String
deriving DecidableEq, Repr

/-- The digest the `hash` property getter computes:
`hash_directory(path/language, deployment, language)`. -/
def CodePackage.currentHash (fs : FS) (p : CodePackage) : String :=
  hash_directory fs (p.path ++ [p.language.value]) p.deployment_name p.language

/-- The `hash` property getter: recomputes the digest from disk, stores it in
`_hash_value` and returns it. -/
def CodePackage.hashRead (fs : FS) (p : CodePackage) : CodePackage × String :=
  let h := p.currentHash fs
  ({ p with _hash_value := some h }, h)

/-- The `hash` property setter (used only for testing in the source). -/
def CodePackage.hashSet (p : CodePackage) (v : String) : CodePackage :=
  { p with _hash_value := some v }

/-- The `code_location` property: the cache-relative recorded location when a
cache payload is present, otherwise the `_code_location` field. -/
def CodePackage.code_location (cache_dir : String) (p : CodePackage) : String :=
  match p.payload with
  | some pl => cache_dir ++ "/" ++ pl.location
  | none => p._code_location

/-- `CodePackage.query_cache`.  The cache client's lookup result for this
(deployment, benchmark, language) key is the `cache` argument.  The returned
boolean records whether the fresh hash was computed and compared (the `some`
branch of the source); the `_benchmarks` lookup is irrelevant to every claim
and omitted. -/
def query_cache (cache : Option CacheEntry) (fs : FS) (p0 : CodePackage) :
    CodePackage × Bool :=
  let p := { p0 with payload := cache }
  match cache with
  | some pl =>
      let r := p.hashRead fs
      ({ r.1 with
          code_size := pl.size
          is_cached := true
          is_cached_valid := r.2 == pl.hash }, true)
  | none =>
      ({ p with is_cached := false, is_cached_valid := false }, false)

/-- The cache-state tail of `CodePackage.__init__`: query the cache, then
apply the force-rebuild flag (`config.update_code`) once. -/
def init_cache_state (cache : Option CacheEntry) (fs : FS) (p : CodePackage) :
    CodePackage :=
  let p1 := (query_cache cache fs p).1
  if p1.update_code then { p1 with is_cached_valid := false } else p1

/-- Observable side effects of a `build()` run. -/
inductive Event where
  | rmTree (d : List String)
  | makeDirs (d : List String)
  | copyCode
  | scriptRun (dir : List String) (exitCode : Nat) (output : String)
  | deploymentFiles
  | imagePull
  | containerRunMount
  | containerStart
  | containerPutArchive
  | containerExec (exitCode : Nat)
  | containerGetArchive
  | containerStop
deriving DecidableEq, Repr

/-- Exceptions that can escape the modelled code paths. -/
inductive BuildErr where
  | pullError
  | containerError
  | apiError
  | fileNotFound (dir : List String) (name : String)
deriving DecidableEq, Repr

/-- The `SeBSConfig` tables the source consults. -/
structure SysConfig where
  deployment_files : String → Lang → List String
  deployment_packages_python : String → List String
  deployment_packages_nodejs : String → List (String × String)
  docker_image_types : String → Lang → List String

/-- The Docker daemon's behaviour for this run. -/
structure DockerWorld where
  image_present : Bool
  pull_ok : Bool
  mount_run : Except Unit String
  put_archive_ok : Bool
  exec_result : Nat × String
  get_archive_ok : Bool
  returned_files : List (String × String)

/-- Behaviour of `subprocess.run` on an `init.sh` invocation: given the
script's directory and the scratch directory, the exit code and the combined
stdout+stderr output (`stderr=subprocess.STDOUT`). -/
structure ScriptWorld where
  run : List String → List String → Nat × String

/-- All external collaborators of a build. -/
structure World where
  sys : SysConfig
  docker : DockerWorld
  script : ScriptWorld
  mergeJson : String → List (String × String) → String
  cache_dir : String

/-- The `FILES` table of `get_code_files` (with `include_config=True`). -/
def code_file_patterns : Lang → List String
  | .python => ["*.py", "requirements.txt*", "*.json"]
  | .nodejs => ["*.js", "package.json", "*.json"]

def get_code_files (fs : FS) (p : CodePackage) : List File :=
  (code_file_patterns p.language).flatMap
    (fun pat => fs.filesInDir (p.path ++ [p.language.value]) pat)

/-- `CodePackage.copy_code`: copy every selected benchmark file into the
scratch directory. -/
def copy_code (fs : FS) (p : CodePackage) (output_dir : List String) : FS :=
  (get_code_files fs p).foldl
    (fun a f => a.writeFile output_dir f.name f.content) fs

/-- `CodePackage.add_benchmark_data`: run `init.sh` from the benchmark root
and from its language subdirectory when present.  The source pipes the
script's stderr into stdout, logs the combined output and never inspects the
exit status (`subprocess.run` without `check`), so the step is total; each run
is recorded as a `scriptRun` event. -/
def add_benchmark_data (sw : ScriptWorld) (fs : FS) (p : CodePackage)
    (output_dir : List String) : List Event :=
  let paths := [p.path, p.path ++ [p.language.value]]
  (paths.filter (fun d => fs.fileExists d "init.sh")).map
    (fun d => Event.scriptRun d (sw.run d output_dir).1 (sw.run d output_dir).2)

/-- Copy each listed deployment file from the wrapper directory into the
scratch directory (`shutil.copy2`; a missing source file raises). -/
def copyFilesList (src dst : List String) : List String → FS → Except BuildErr FS
  | [], fs => .ok fs
  | f :: rest, fs =>
      match fs.readFile src f with
      | none => .error (.fileNotFound src f)
      | some c => copyFilesList src dst rest (fs.writeFile dst f c)

/-- The python-only handler-selection step of `add_deployment_files`:
rename the selected wrapper variant to `handler.py` and remove the other
(`os.rename` / `os.remove`, both raising when the file is missing). -/
def select_handler_python (fs : FS) (output_dir : List String)
    (is_workflow : Bool) : Except BuildErr FS :=
  let keep := if is_workflow then "handler_workflow.py" else "handler_function.py"
  let drop := if is_workflow then "handler_function.py" else "handler_workflow.py"
  match fs.renameFile output_dir keep "handler.py" with
  | none => .error (.fileNotFound output_dir keep)
  | some fs1 =>
      if fs1.fileExists output_dir drop then .ok (fs1.eraseFile output_dir drop)
      else .error (.fileNotFound output_dir drop)

/-- `CodePackage.add_deployment_files`: copy the configured wrapper files,
then — for python only — select exactly one handler variant. -/
def add_deployment_files (sys : SysConfig) (fs : FS) (p : CodePackage)
    (output_dir : List String) (is_workflow : Bool) : Except BuildErr FS :=
  let handlers_dir := ["benchmarks", "wrappers", p.deployment_name, p.language.value]
  match copyFilesList handlers_dir output_dir
      (sys.deployment_files p.deployment_name p.language) fs with
  | .error e => .error e
  | .ok fs1 =>
      if p.language = .python then select_handler_python fs1 output_dir is_workflow
      else .ok fs1

/-- `add_deployment_package_python`: append the configured packages to the
end of `requirements.txt` (mode `"a"` creates the file when absent). -/
def add_deployment_package_python (sys : SysConfig) (fs : FS) (p : CodePackage)
    (output_dir : List String) : FS :=
  let packages := sys.deployment_packages_python p.deployment_name
  if packages.length ≠ 0 then
    let old := (fs.readFile output_dir "requirements.txt").getD ""
    fs.writeFile output_dir "requirements.txt"
      (old ++ "\n" ++ String.join (packages.map (fun pk => pk ++ "\n")))
  else fs

/-- `add_deployment_package_nodejs`: parse `package.json`, merge the
configured packages into its `dependencies` mapping and rewrite it.  The JSON
codec is abstracted as the uninterpreted `mergeJson` collaborator. -/
def add_deployment_package_nodejs (sys : SysConfig)
    (mergeJson : String → List (String × String) → String) (fs : FS)
    (p : CodePackage) (output_dir : List String) : Except BuildErr FS :=
  let packages := sys.deployment_packages_nodejs p.deployment_name
  if packages.length ≠ 0 then
    match fs.readFile output_dir "package.json" with
    | none => .error (.fileNotFound output_dir "package.json")
    | some c => .ok (fs.writeFile output_dir "package.json" (mergeJson c packages))
  else .ok fs

def add_deployment_package (sys : SysConfig)
    (mergeJson : String → List (String × String) → String) (fs : FS)
    (p : CodePackage) (output_dir : List String) : Except BuildErr FS :=
  match p.language with
  | .python => .ok (add_deployment_package_python sys fs p output_dir)
  | .nodejs => add_deployment_package_nodejs sys mergeJson fs p output_dir

/-- The `PACKAGE_FILES` table of `install_dependencies`. -/
def PACKAGE_FILES : Lang → String
  | .python => "requirements.txt"
  | .nodejs => "package.json"

/-- Content of the tar stream packing the scratch directory (opaque to every
claim; modelled as the concatenation of the packed contents). -/
def tarPack (fs : FS) (d : List String) : String :=
  String.join ((fs.files.filter (fun f => f.dir == d)).map (fun f => f.content))

/-- `CodePackage.install_dependencies`.  The trace is returned next to the
result so that container events remain observable on the error paths: the
source has no `try/finally` around the archive branch, so an exception raised
by `put_archive`/`get_archive` (a Docker `APIError`, not caught by the
`ContainerError` handler) propagates before `container.stop()`. -/
def install_dependencies (sys : SysConfig) (docker : DockerWorld) (fs : FS)
    (p : CodePackage) (output_dir : List String) :
    Except BuildErr FS × List Event :=
  if !((sys.docker_image_types p.deployment_name p.language).contains "build") then
    (.ok fs, [])
  else
    let resolution : Except BuildErr (List Event) :=
      if docker.image_present then .ok []
      else if docker.pull_ok then .ok [.imagePull]
      else .error .pullError
    match resolution with
    | .error e => (.error e, [])
    | .ok evs0 =>
        if fs.fileExists output_dir (PACKAGE_FILES p.language) then
          if !p.docker_copy_build_files then
            match docker.mount_run with
            | .ok _stdout => (.ok fs, evs0 ++ [.containerRunMount])
            | .error _ => (.error .containerError, evs0 ++ [.containerRunMount])
          else
            let evs1 := evs0 ++ [Event.containerStart]
            let tarDir := output_dir.dropLast
            let fs1 := fs.writeFile tarDir "function.tar" (tarPack fs output_dir)
            if !docker.put_archive_ok then (.error .apiError, evs1)
            else
              let evs2 := evs1 ++ [Event.containerPutArchive,
                Event.containerExec docker.exec_result.1]
              if !docker.get_archive_ok then (.error .apiError, evs2)
              else
                let fs2 := fs1.writeFile tarDir "function.tar"
                  (String.join (docker.returned_files.map (fun e => e.2)))
                let fs3 := docker.returned_files.foldl
                  (fun a e => a.writeFile output_dir e.1 e.2) fs2
                (.ok fs3, evs2 ++ [Event.containerGetArchive, Event.containerStop])
        else (.ok fs, evs0)

structure BuildResult where
  pkg : CodePackage
  fs : FS
  cache : Option CacheEntry
  rebuilt : Bool
  location : String
deriving DecidableEq, Repr

/-- The tail of the rebuild branch of `build()` after `add_benchmark_data`:
deployment files, deployment packages, dependency install, the external
deployment-build callback, and the cache write-back followed by the re-query.
The cache write is modelled from the spec: `add_code_package` /
`update_code_package` live in `sebs/cache.py` (not part of the shown source);
per the spec the stored entry is `{hash, size, location}` built from the
package's freshly read hash, its code size and the finalized location. -/
def buildTail (sys : SysConfig) (docker : DockerWorld)
    (mergeJson : String → List (String × String) → String) (fs : FS)
    (deployment_build_step : List String → String × Nat) (is_workflow : Bool)
    (p : CodePackage) : Except BuildErr BuildResult × List Event :=
  match add_deployment_files sys fs p p.output_dir is_workflow with
  | .error e => (.error e, [Event.deploymentFiles])
  | .ok fs1 =>
      match add_deployment_package sys mergeJson fs1 p p.output_dir with
      | .error e => (.error e, [Event.deploymentFiles])
      | .ok fs2 =>
          match install_dependencies sys docker fs2 p p.output_dir with
          | (.error e, evs) => (.error e, Event.deploymentFiles :: evs)
          | (.ok fs3, evs) =>
              let r := deployment_build_step p.output_dir
              let p1 := { p with _code_location := r.1, code_size := r.2 }
              let h := p1.hashRead fs3
              let newCache : Option CacheEntry :=
                some ⟨h.2, h.1.code_size, h.1._code_location⟩
              let p2 := (query_cache newCache fs3 h.1).1
              (.ok ⟨p2, fs3, newCache, true, h.1._code_location⟩,
                Event.deploymentFiles :: evs)

/-- `CodePackage.build`.  Returns the result of the call (the updated
package, filesystem, cache state, and the `(rebuilt, location)` pair the
source returns) together with the trace of side effects. -/
def build (w : World) (fs : FS) (cache : Option CacheEntry)
    (deployment_build_step : List String → String × Nat) (is_workflow : Bool)
    (p : CodePackage) : Except BuildErr BuildResult × List Event :=
  if p.is_cached && p.is_cached_valid then
    (.ok ⟨p, fs, cache, false, p.code_location w.cache_dir⟩, [])
  else
    let p0 := { p with payload := none }
    let wiped :=
      if fs.dirExists p0.output_dir then
        (fs.rmTree p0.output_dir, [Event.rmTree p0.output_dir])
      else (fs, [])
    let fs1 := wiped.1.mkDir p0.output_dir
    let evs1 := wiped.2 ++ [Event.makeDirs p0.output_dir]
    let fs2 := copy_code fs1 p0 p0.output_dir
    let scriptEvs := add_benchmark_data w.script fs2 p0 p0.output_dir
    let tail := buildTail w.sys w.docker w.mergeJson fs2
      deployment_build_step is_workflow p0
    (tail.1, evs1 ++ [Event.copyCode] ++ scriptEvs ++ tail.2)

/-- A zip archive: entries in file order, plus the archive-level comment. -/
structure ZipArchive where
  entries : List (String × String)
  comment : String
deriving DecidableEq, Repr

/-- `ZipFile.read(name)`: the content of the last entry with that name (the
reader resolves duplicate names to the latest local header). -/
def ZipArchive.readEntry (z : ZipArchive) (name : String) : Option String :=
  ((z.entries.filter (fun e => e.1 = name)).getLast?).map (fun e => e.2)

/-- `CodePackage._update_zip`: copy every entry except `filename` (in order,
preserving the comment) into a replacement archive, then append a fresh entry
`filename` with `data`.  Each copy is `zout.writestr(item, zin.read(item.filename))`:
the written content is looked up **by name** in the source archive, so a
duplicate-named entry is copied as the last entry of that name, not as its
own bytes.  (`zin.read` cannot miss for a listed name; the `getD` default is
unreachable.) -/
def _update_zip (z : ZipArchive) (filename : String) (data : String) :
    ZipArchive :=
  { entries :=
      (z.entries.filter (fun e => e.1 ≠ filename)).map
        (fun e => (e.1, (z.readEntry e.1).getD "")) ++ [(filename, data)],
    comment := z.comment }

/-- Concrete system-config tables used by the concrete runs below. -/
def exSys : SysConfig where
  deployment_files := fun _ _ => ["handler_function.py", "handler_workflow.py"]
  deployment_packages_python := fun _ => []
  deployment_packages_nodejs := fun _ => []
  docker_image_types := fun _ _ => []

def exDocker : DockerWorld where
  image_present := true
  pull_ok := true
  mount_run := .ok ""
  put_archive_ok := true
  exec_result := (0, "")
  get_archive_ok := true
  returned_files := []

def exWorld : World where
  sys := exSys
  docker := exDocker
  script := ⟨fun _ _ => (0, "")⟩
  mergeJson := fun c _ => c
  cache_dir := "cache"

/-- A concrete benchmark tree: one python source file and the two wrapper
variants for the `aws` deployment. -/
def exFS : FS where
  files := [⟨["bench", "python"], "main.py", "a"⟩,
            ⟨["benchmarks", "wrappers", "aws", "python"], "handler_function.py", "F"⟩,
            ⟨["benchmarks", "wrappers", "aws", "python"], "handler_workflow.py", "W"⟩]
  dirs := []

def exPkg : CodePackage where
  name := "b"
  deployment_name := "aws"
  language := .python
  language_version := "3.8"
  path := ["bench"]
  output_dir := ["out", "b_code"]
  update_code := false
  docker_copy_build_files := false
  payload := none
  is_cached := false
  is_cached_valid := false
  _code_location := ""
  code_size := 0
  _hash_value := none

def exDbs : List String → String × Nat := fun _ => ("built.zip", 7)

/-- A valid cache entry for `exPkg` on `exFS` (its digest is `"aFW"`). -/
def exEntry : CacheEntry := ⟨"aFW", 5, "old.zip"⟩

def c3_pkg : CodePackage := { exPkg with update_code := true }

def c3_cache : Option CacheEntry := some exEntry

/-- Two consecutive `build()` calls on a package constructed with the
force-rebuild flag set: the `rebuilt` component of each call. -/
def c3_runs : Option (Bool × Bool) :=
  match (build exWorld exFS c3_cache exDbs false
      (init_cache_state c3_cache exFS c3_pkg)).1 with
  | .ok r =>
      match (build exWorld r.fs r.cache exDbs false r.pkg).1 with
      | .ok r2 => some (r.rebuilt, r2.rebuilt)
      | .error _ => none
  | .error _ => none

def c4_sys : SysConfig :=
  { exSys with
      deployment_files := fun _ _ => ["handler_function.js", "handler_workflow.js"] }

def c4_fs : FS where
  files := [⟨["benchmarks", "wrappers", "aws", "nodejs"], "handler_function.js", "F"⟩,
            ⟨["benchmarks", "wrappers", "aws", "nodejs"], "handler_workflow.js", "W"⟩]
  dirs := []

def c4_pkg : CodePackage := { exPkg with language := .nodejs }

def c4_result : Except BuildErr FS :=
  add_deployment_files c4_sys c4_fs c4_pkg ["out", "b_code"] true

/-- The scratch directory produced by `add_deployment_files` on `exFS` for a
python single-function benchmark: one wrapper left, at `handler.py`. -/
def c4w_fs : FS where
  files := exFS.files ++ [⟨["out", "b_code"], "handler.py", "F"⟩]
  dirs := []

def c5s : ScriptWorld := ⟨fun _ _ => (1, "err")⟩

def c5_world : World := { exWorld with script := c5s }

def c5_fs : FS := { exFS with files := exFS.files ++ [⟨["bench"], "init.sh", "s"⟩] }

def c5_run : Except BuildErr BuildResult × List Event :=
  build c5_world c5_fs none exDbs false (init_cache_state none c5_fs exPkg)

def c6_sys : SysConfig :=
  { exSys with docker_image_types := fun _ _ => ["build"] }

def c6_pkg : CodePackage := { exPkg with docker_copy_build_files := true }

def c6_fs : FS :=
  { exFS with files := exFS.files ++ [⟨["out", "b_code"], "requirements.txt", "r"⟩] }

def c6_docker_fail : DockerWorld := { exDocker with get_archive_ok := false }

def c6_run : Except BuildErr FS × List Event :=
  install_dependencies c6_sys c6_docker_fail c6_fs c6_pkg ["out", "b_code"]

/-- Docker behaviour whose install script exits non-zero but whose archive
transfer succeeds. -/
def c6w_docker : DockerWorld := { exDocker with exec_result := (1, "boom") }

def c7_zip : ZipArchive := ⟨[("x", "1"), ("e", "2"), ("y", "3")], "cm"⟩

/-- An archive with a duplicate-named untouched entry (`"x"` twice) and
exactly one entry named `"e"`. -/
def c7_dup_zip : ZipArchive :=
  ⟨[("x", "c1"), ("x", "c2"), ("e", "old"), ("y", "c3")], "cm"⟩

def c8_docker : DockerWorld := { exDocker with image_present := false, pull_ok := false }

def c8_world : World := { exWorld with sys := c6_sys, docker := c8_docker }

def c8_run : Except BuildErr BuildResult × List Event :=
  build c8_world exFS none exDbs false (init_cache_state none exFS exPkg)

def c9_fs2 : FS :=
  { exFS with files := exFS.files ++ [⟨["scratch"], "junk.py", "z"⟩] }

theorem lookupF_append (l1 l2 : List File) (d : List String) (n : String) :
    lookupF (l1 ++ l2) d n =
      match lookupF l1 d n with
      | some c => some c
      | none => lookupF l2 d n := by
  induction l1 with
  | nil => simp [lookupF]
  | cons f rest ih =>
      by_cases h : f.dir = d ∧ f.name = n
      · simp [lookupF, h]
      · simp [lookupF, h, ih]

theorem lookupF_erase (l : List File) (d : List String) (n : String)
    (d' : List String) (n' : String) :
    lookupF (eraseF l d n) d' n' =
      if d' = d ∧ n' = n then none else lookupF l d' n' := by
  induction l with
  | nil => simp [eraseF, lookupF]
  | cons f rest ih =>
      simp only [eraseF]
      by_cases h1 : f.dir = d ∧ f.name = n
      · rw [if_pos h1, ih, lookupF]
        by_cases h2 : d' = d ∧ n' = n
        · simp [h2]
        · have h3 : ¬(f.dir = d' ∧ f.name = n') := by
            rintro ⟨h4, h5⟩
            exact h2 ⟨h4.symm.trans h1.1, h5.symm.trans h1.2⟩
          simp [h2, h3]
      · rw [if_neg h1, lookupF, ih, lookupF]
        by_cases h3 : f.dir = d' ∧ f.name = n'
        · by_cases h2 : d' = d ∧ n' = n
          · exact absurd ⟨h3.1.trans h2.1, h3.2.trans h2.2⟩ h1
          · simp [h2, h3]
        · simp [h3]

theorem lookupF_write (l : List File) (d : List String) (n c : String)
    (d' : List String) (n' : String) :
    lookupF (eraseF l d n ++ [⟨d, n, c⟩]) d' n' =
      if d' = d ∧ n' = n then some c else lookupF l d' n' := by
  rw [lookupF_append, lookupF_erase]
  by_cases h : d' = d ∧ n' = n
  · simp [h, lookupF]
  · have h2 : ¬(d = d' ∧ n = n') := by
      rintro ⟨h3, h4⟩; exact h ⟨h3.symm, h4.symm⟩
    simp only [if_neg h]
    cases hl : lookupF l d' n' with
    | some x => simp
    | none => simp [lookupF, h2]

theorem FS.readFile_write (fs : FS) (d : List String) (n c : String)
    (d' : List String) (n' : String) :
    (fs.writeFile d n c).readFile d' n' =
      if d' = d ∧ n' = n then some c else fs.readFile d' n' :=
  lookupF_write fs.files d n c d' n'

theorem FS.readFile_erase (fs : FS) (d : List String) (n : String)
    (d' : List String) (n' : String) :
    (fs.eraseFile d n).readFile d' n' =
      if d' = d ∧ n' = n then none else fs.readFile d' n' :=
  lookupF_erase fs.files d n d' n'

theorem zip_filter_eq_of_filter_ne (l : List (String × String)) (f : String) :
    (l.filter (fun e => e.1 ≠ f)).filter (fun e => e.1 = f) = [] := by
  induction l with
  | nil => rfl
  | cons a t ih => by_cases h : a.1 = f <;> simp [h, ih]

theorem zip_filter_ne_idem (l : List (String × String)) (f : String) :
    (l.filter (fun e => e.1 ≠ f)).filter (fun e => e.1 ≠ f) =
      l.filter (fun e => e.1 ≠ f) := by
  induction l with
  | nil => rfl
  | cons a t ih => by_cases h : a.1 = f <;> simp [h, ih]

theorem zip_filter_length_split (l : List (String × String)) (f : String) :
    (l.filter (fun e => e.1 = f)).length +
      (l.filter (fun e => e.1 ≠ f)).length = l.length := by
  induction l with
  | nil => rfl
  | cons a t ih =>
      simp only [decide_not] at ih ⊢
      by_cases h : a.1 = f <;> simp [h] <;> omega

/-- C2: the cache validity classification of `query_cache`: with no cache
entry the package is absent (`is_cached = is_cached_valid = false`) and the
fresh hash is neither computed nor compared; with an entry the package is
cached, and valid exactly when the freshly computed digest equals the stored
one. -/
theorem query_cache_classification (cache : Option CacheEntry) (fs : FS)
    (p : CodePackage) :
    (query_cache cache fs p).1.is_cached = cache.isSome ∧
    (query_cache cache fs p).1.is_cached_valid =
      (match cache with
       | some e => p.currentHash fs == e.hash
       | none => false) ∧
    (query_cache cache fs p).2 = cache.isSome := by
  cases cache <;> simp [query_cache, CodePackage.hashRead, CodePackage.currentHash]

/-- C9: `hash_directory` is a deterministic function of the files it reads:
two snapshots on which the hasher's input enumeration coincides (in
particular, two reads of an unchanged source tree) produce identical
digests. -/
theorem hash_directory_deterministic (fs1 fs2 : FS) (d : List String)
    (dep : String) (l : Lang)
    (h : hashInputs fs1 d dep l = hashInputs fs2 d dep l) :
    hash_directory fs1 d dep l = hash_directory fs2 d dep l := by
  simp [hash_directory, h]

/-- Witness for C9 at a concrete tree: adding a file outside the hashed
directories leaves the enumeration, hence the digest, unchanged. -/
theorem hash_directory_deterministic_witness :
    hashInputs exFS ["bench", "python"] "aws" .python =
      hashInputs c9_fs2 ["bench", "python"] "aws" .python ∧
    hash_directory exFS ["bench", "python"] "aws" .python =
      hash_directory c9_fs2 ["bench", "python"] "aws" .python :=
  ⟨rfl, hash_directory_deterministic exFS c9_fs2 ["bench", "python"] "aws" .python rfl⟩

/-- C10: the `hash` property getter always recomputes the digest from the
benchmark's language directory, so a value stored through the setter is
ignored by every subsequent read: the read returns the recomputed directory
digest, agrees with a read without the preceding set, and leaves the package
in the same state. -/
theorem hash_setter_overridden_by_getter (fs : FS) (p : CodePackage) (v : String) :
    ((p.hashSet v).hashRead fs).2 =
      hash_directory fs (p.path ++ [p.language.value]) p.deployment_name p.language ∧
    ((p.hashSet v).hashRead fs).2 = (p.hashRead fs).2 ∧
    ((p.hashSet v).hashRead fs).1 = (p.hashRead fs).1 := by
  simp [CodePackage.hashSet, CodePackage.hashRead, CodePackage.currentHash]

theorem map_eq_self_of {α : Type} (l : List α) (f : α → α)
    (h : ∀ x ∈ l, f x = x) : l.map f = l := by
  induction l with
  | nil => rfl
  | cons a t ih =>
      rw [List.map_cons, h a (List.mem_cons_self a t),
        ih (fun x hx => h x (List.mem_cons_of_mem a hx))]

theorem zip_filter_key_singleton :
    ∀ (l : List (String × String)) (e : String × String),
      (l.map (fun x => x.1)).Nodup → e ∈ l →
      l.filter (fun x => x.1 = e.1) = [e] := by
  intro l
  induction l with
  | nil => intro e _ he; cases he
  | cons a t ih =>
      intro e hnd he
      simp only [List.map_cons, List.nodup_cons] at hnd
      rcases List.mem_cons.mp he with rfl | he2
      · have hrest : t.filter (fun x => x.1 = e.1) = [] := by
          rw [List.filter_eq_nil_iff]
          intro x hx
          simp only [decide_eq_true_eq]
          intro hx2
          exact hnd.1 (List.mem_map.mpr ⟨x, hx, hx2⟩)
        simp [hrest]
      · have hne : ¬(a.1 = e.1) := by
          intro hx2
          exact hnd.1 (hx2 ▸ List.mem_map.mpr ⟨e, he2, rfl⟩)
        simp [hne, ih e hnd.2 he2]

theorem zip_read_of_nodup (z : ZipArchive) (e : String × String)
    (hnd : (z.entries.map (fun x => x.1)).Nodup) (he : e ∈ z.entries) :
    z.readEntry e.1 = some e.2 := by
  unfold ZipArchive.readEntry
  rw [zip_filter_key_singleton z.entries e hnd he]
  rfl

/-- C7 counterexample: the source copies untouched entries by a by-name read
(`zin.read(item.filename)`), which resolves a duplicate name to the last
entry bearing it.  On an archive with a duplicate-named untouched entry and
exactly one entry named `"e"` (the claim's only precondition), patching `"e"`
rewrites the first `"x"` with the last `"x"`'s bytes, so the other entries
are not byte-identical to the originals. -/
theorem update_zip_duplicate_cex :
    (c7_dup_zip.entries.filter (fun e => e.1 = "e")).length = 1 ∧
    (_update_zip c7_dup_zip "e" "new").entries =
      [("x", "c2"), ("x", "c2"), ("y", "c3"), ("e", "new")] ∧
    (_update_zip c7_dup_zip "e" "new").entries.filter (fun e => e.1 ≠ "e") ≠
      c7_dup_zip.entries.filter (fun e => e.1 ≠ "e") :=
  ⟨by decide, by decide, by decide⟩

/-- C7 amended: on archives whose entry names are pairwise distinct (so the
by-name copy returns each untouched entry's own bytes) and which contain
exactly one entry named `filename`: reading the patched archive yields the
new bytes, every other entry is byte-identical and in its original order,
the entry count is unchanged, exactly one entry of that name remains, and
the comment is preserved. -/
theorem update_zip_roundtrip (z : ZipArchive) (filename data : String)
    (hnodup : (z.entries.map (fun e => e.1)).Nodup)
    (h : (z.entries.filter (fun e => e.1 = filename)).length = 1) :
    (_update_zip z filename data).readEntry filename = some data ∧
    (_update_zip z filename data).entries.filter (fun e => e.1 ≠ filename) =
      z.entries.filter (fun e => e.1 ≠ filename) ∧
    (_update_zip z filename data).entries.length = z.entries.length ∧
    ((_update_zip z filename data).entries.filter
      (fun e => e.1 = filename)).length = 1 ∧
    (_update_zip z filename data).comment = z.comment := by
  have hmap : (_update_zip z filename data).entries =
      z.entries.filter (fun e => e.1 ≠ filename) ++ [(filename, data)] := by
    simp only [_update_zip]
    congr 1
    exact map_eq_self_of _ _ (fun e he => by
      rw [zip_read_of_nodup z e hnodup (List.mem_of_mem_filter he)]
      rfl)
  have hsplit := zip_filter_length_split z.entries filename
  refine ⟨?_, ?_, ?_, ?_, rfl⟩
  · simp [ZipArchive.readEntry, hmap, List.filter_append,
      zip_filter_eq_of_filter_ne]
  · simp [hmap, List.filter_append, zip_filter_ne_idem]
  · rw [hmap]
    simp only [List.length_append, List.length_cons, List.length_nil]
    simp only [decide_not] at hsplit h ⊢
    omega
  · simp [hmap, List.filter_append, zip_filter_eq_of_filter_ne]

/-- C1: when the cache entry exists, its stored hash equals the freshly
computed digest and the force-rebuild flag is unset, `build()` short-circuits:
it performs no side effect at all (empty trace, package, filesystem and cache
unchanged) and returns `(rebuilt = false, previously recorded location)`. -/
theorem build_cache_hit_valid (w : World) (fs : FS) (cache : Option CacheEntry)
    (dbs : List String → String × Nat) (iw : Bool) (p0 : CodePackage)
    (e : CacheEntry) (hc : cache = some e) (hh : e.hash = p0.currentHash fs)
    (hu : p0.update_code = false) :
    build w fs cache dbs iw (init_cache_state cache fs p0) =
      (.ok ⟨init_cache_state cache fs p0, fs, cache, false,
        w.cache_dir ++ "/" ++ e.location⟩, []) := by
  subst hc
  have hh2 : hash_directory fs (p0.path ++ [p0.language.value]) p0.deployment_name
      p0.language = e.hash := hh.symm
  simp [init_cache_state, query_cache, CodePackage.hashRead,
    CodePackage.currentHash, hu, build, hh2, CodePackage.code_location]

/-- Witness for C1 on the concrete tree `exFS`, whose digest is `"aFW"`. -/
theorem build_cache_hit_valid_witness :
    exEntry.hash = exPkg.currentHash exFS ∧ exPkg.update_code = false ∧
    build exWorld exFS (some exEntry) exDbs false
        (init_cache_state (some exEntry) exFS exPkg) =
      (.ok ⟨init_cache_state (some exEntry) exFS exPkg, exFS, some exEntry, false,
        exWorld.cache_dir ++ "/" ++ exEntry.location⟩, []) :=
  ⟨rfl, rfl, build_cache_hit_valid exWorld exFS (some exEntry) exDbs false exPkg
    exEntry rfl rfl rfl⟩

theorem buildTail_rebuilt (sys : SysConfig) (docker : DockerWorld)
    (mergeJson : String → List (String × String) → String) (fs : FS)
    (dbs : List String → String × Nat) (iw : Bool) (p : CodePackage)
    (br : BuildResult)
    (h : (buildTail sys docker mergeJson fs dbs iw p).1 = .ok br) :
    br.rebuilt = true := by
  unfold buildTail at h
  split at h
  · simp at h
  · split at h
    · simp at h
    · split at h
      · simp at h
      · simp only [Except.ok.injEq] at h
        rw [← h]

/-- C3 counterexample: on a package constructed with the force-rebuild flag
set over a valid cache entry, the first `build()` rebuilds, but the
`query_cache` re-run at the end of that build restores `is_cached_valid`
without re-applying the flag, so the second `build()` call short-circuits to
the cached location even though the flag is still set. -/
theorem force_rebuild_cex :
    c3_pkg.update_code = true ∧ c3_runs = some (true, false) := ⟨rfl, rfl⟩

/-- C3 amended: the force-rebuild override is applied once, at construction:
a package built with `update_code` set is classified stale there, so the
first `build()` call never short-circuits (any successful call rebuilt). -/
theorem force_rebuild_first_build (w : World) (fs : FS)
    (cache : Option CacheEntry) (dbs : List String → String × Nat) (iw : Bool)
    (p : CodePackage) (hu : p.update_code = true) :
    (init_cache_state cache fs p).is_cached_valid = false ∧
    ∀ br, (build w fs cache dbs iw (init_cache_state cache fs p)).1 = .ok br →
      br.rebuilt = true := by
  have h1 : (init_cache_state cache fs p).is_cached_valid = false := by
    cases cache <;>
      simp [init_cache_state, query_cache, CodePackage.hashRead, hu]
  refine ⟨h1, ?_⟩
  intro br h
  rw [build] at h
  rw [h1, Bool.and_false] at h
  simp only [if_false, Bool.false_eq_true, ite_false] at h
  exact buildTail_rebuilt _ _ _ _ _ _ _ br h

/-- Witness for the amended C3 at the concrete valid cache entry. -/
theorem force_rebuild_first_build_witness :
    c3_pkg.update_code = true ∧
    (init_cache_state c3_cache exFS c3_pkg).is_cached_valid = false :=
  ⟨rfl, (force_rebuild_first_build exWorld exFS c3_cache exDbs false c3_pkg rfl).1⟩

/-- C4 counterexample: for a nodejs package whose deployment files are the
two wrapper variants, `add_deployment_files` performs no selection: both
variants remain in the scratch directory and no file exists at the
conventional `handler.js` entry point. -/
theorem wrapper_selection_nodejs_cex :
    c4_result.toOption.map (fun fs =>
      (fs.fileExists ["out", "b_code"] "handler_function.js",
       fs.fileExists ["out", "b_code"] "handler_workflow.js",
       fs.fileExists ["out", "b_code"] "handler.js")) =
      some (true, true, false) := rfl

theorem select_handler_python_exclusive (fs1 : FS) (out : List String)
    (iw : Bool) (fs' : FS) (h : select_handler_python fs1 out iw = .ok fs') :
    fs'.readFile out "handler_function.py" = none ∧
    fs'.readFile out "handler_workflow.py" = none ∧
    fs'.readFile out "handler.py" =
      fs1.readFile out (if iw then "handler_workflow.py" else "handler_function.py") ∧
    (fs'.readFile out "handler.py").isSome = true := by
  have hn1 : ("handler_function.py" : String) ≠ "handler.py" := by decide
  have hn2 : ("handler_workflow.py" : String) ≠ "handler.py" := by decide
  have hn3 : ("handler_function.py" : String) ≠ "handler_workflow.py" := by decide
  have hn4 : ("handler_workflow.py" : String) ≠ "handler_function.py" := by decide
  have hn5 : ("handler.py" : String) ≠ "handler_workflow.py" := by decide
  have hn6 : ("handler.py" : String) ≠ "handler_function.py" := by decide
  cases iw
  · simp only [select_handler_python, FS.renameFile, Bool.false_eq_true,
      ite_false] at h
    cases hr : fs1.readFile out "handler_function.py" with
    | none => rw [hr] at h; simp at h
    | some c =>
        rw [hr] at h
        simp only [FS.fileExists] at h
        cases hd : (((fs1.eraseFile out "handler_function.py").writeFile out
            "handler.py" c).readFile out "handler_workflow.py").isSome with
        | false => rw [if_neg (by simp [hd])] at h; simp at h
        | true =>
            rw [if_pos hd] at h
            simp only [Except.ok.injEq] at h
            subst h
            simp [FS.readFile_erase, FS.readFile_write, hn1, hn2, hn3, hn4,
              hn5, hn6, hr]
  · simp only [select_handler_python, FS.renameFile, ite_true] at h
    cases hr : fs1.readFile out "handler_workflow.py" with
    | none => rw [hr] at h; simp at h
    | some c =>
        rw [hr] at h
        simp only [FS.fileExists] at h
        cases hd : (((fs1.eraseFile out "handler_workflow.py").writeFile out
            "handler.py" c).readFile out "handler_function.py").isSome with
        | false => rw [if_neg (by simp [hd])] at h; simp at h
        | true =>
            rw [if_pos hd] at h
            simp only [Except.ok.injEq] at h
            subst h
            simp [FS.readFile_erase, FS.readFile_write, hn1, hn2, hn3, hn4,
              hn5, hn6, hr]

/-- C4 amended: the wrapper rename/discard step exists only for python.
There, whenever `add_deployment_files` succeeds, exactly one wrapper remains:
`handler.py` holds the selected variant's bytes and neither variant file
survives.  (For nodejs no selection is performed; see the counterexample.) -/
theorem wrapper_exclusive_python (sys : SysConfig) (fs : FS) (p : CodePackage)
    (out : List String) (iw : Bool) (fs' : FS) (hl : p.language = .python)
    (h : add_deployment_files sys fs p out iw = .ok fs') :
    ∃ fs1, copyFilesList ["benchmarks", "wrappers", p.deployment_name,
        p.language.value] out (sys.deployment_files p.deployment_name p.language)
        fs = .ok fs1 ∧
      fs'.readFile out "handler_function.py" = none ∧
      fs'.readFile out "handler_workflow.py" = none ∧
      fs'.readFile out "handler.py" =
        fs1.readFile out (if iw then "handler_workflow.py" else "handler_function.py") ∧
      (fs'.readFile out "handler.py").isSome = true := by
  simp only [add_deployment_files] at h
  cases hc : copyFilesList ["benchmarks", "wrappers", p.deployment_name,
      p.language.value] out (sys.deployment_files p.deployment_name p.language)
      fs with
  | error e => rw [hc] at h; simp at h
  | ok fs1 =>
      rw [hc] at h
      rw [hl] at h
      simp only [if_pos rfl, ite_true] at h
      exact ⟨fs1, rfl, select_handler_python_exclusive fs1 out iw fs' h⟩

/-- Witness for the amended C4: the concrete python run on `exFS`. -/
theorem wrapper_exclusive_python_witness :
    exPkg.language = .python ∧
    add_deployment_files exSys exFS exPkg ["out", "b_code"] false = .ok c4w_fs ∧
    c4w_fs.readFile ["out", "b_code"] "handler_function.py" = none ∧
    c4w_fs.readFile ["out", "b_code"] "handler_workflow.py" = none := by
  obtain ⟨fs1, hcopy, h1, h2, h3, h4⟩ :=
    wrapper_exclusive_python exSys exFS exPkg ["out", "b_code"] false c4w_fs
      rfl rfl
  exact ⟨rfl, rfl, h1, h2⟩

/-- C5 counterexample: `add_benchmark_data` runs `init.sh` through
`subprocess.run` without checking the return code, so a script exiting 1 is
captured and logged but does not abort the build: the concrete run still
rebuilds successfully. -/
theorem init_script_nonzero_exit_cex :
    (c5_world.script.run ["bench"] ["out", "b_code"]).1 = 1 ∧
    Event.scriptRun ["bench"] 1 "err" ∈ c5_run.2 ∧
    c5_run.1.toOption.map (fun r => r.rebuilt) = some true :=
  ⟨rfl, by decide, rfl⟩

/-- C5 amended: the setup script's combined stdout+stderr output is captured
and logged (a `scriptRun` event records it whenever the script exists), and
neither output on standard error nor a non-zero process exit fails the build:
the build's result is entirely independent of the script world. -/
theorem init_script_not_fatal (w : World) (s' : ScriptWorld) (fs : FS)
    (cache : Option CacheEntry) (dbs : List String → String × Nat) (iw : Bool)
    (p : CodePackage) (sw : ScriptWorld) (fs0 : FS) (p0 : CodePackage)
    (out : List String) (h : fs0.fileExists p0.path "init.sh" = true) :
    (build { w with script := s' } fs cache dbs iw p).1 =
      (build w fs cache dbs iw p).1 ∧
    Event.scriptRun p0.path (sw.run p0.path out).1 (sw.run p0.path out).2 ∈
      add_benchmark_data sw fs0 p0 out := by
  constructor
  · cases hb : (p.is_cached && p.is_cached_valid) <;> simp [build, hb]
  · simp only [add_benchmark_data, List.mem_map]
    refine ⟨p0.path, ?_, rfl⟩
    simp [h]

/-- Witness for the amended C5: concrete script returning exit code 1. -/
theorem init_script_not_fatal_witness :
    c5_fs.fileExists exPkg.path "init.sh" = true ∧
    (build { exWorld with script := c5s } exFS none exDbs false exPkg).1 =
      (build exWorld exFS none exDbs false exPkg).1 ∧
    Event.scriptRun exPkg.path 1 "err" ∈
      add_benchmark_data c5s c5_fs exPkg ["out", "b_code"] :=
  ⟨rfl,
    (init_script_not_fatal exWorld c5s exFS none exDbs false exPkg c5s c5_fs
      exPkg ["out", "b_code"] rfl).1,
    (init_script_not_fatal exWorld c5s exFS none exDbs false exPkg c5s c5_fs
      exPkg ["out", "b_code"] rfl).2⟩

/-- C6 counterexample: in the archive branch, an error while pulling the
built tree back (`get_archive`) propagates before `container.stop()`: the
trace of the failing run records the container start but no stop, so the
container leaks. -/
theorem archive_leak_cex :
    c6_run.1 = .error .apiError ∧
    Event.containerStart ∈ c6_run.2 ∧ Event.containerStop ∉ c6_run.2 :=
  ⟨rfl, by decide, by decide⟩

/-- C6 amended: under the archive strategy the container is stopped whenever
the transfer steps (`put_archive`, `get_archive`) succeed — in particular for
every exit code of the install script, including non-zero; an exception in a
transfer step, however, propagates before the stop call. -/
theorem archive_container_stop (sys : SysConfig) (docker : DockerWorld)
    (fs : FS) (p : CodePackage) (out : List String)
    (ha : p.docker_copy_build_files = true)
    (hb : (sys.docker_image_types p.deployment_name p.language).contains "build"
      = true)
    (hi : docker.image_present = true ∨ docker.pull_ok = true)
    (hm : fs.fileExists out (PACKAGE_FILES p.language) = true)
    (hput : docker.put_archive_ok = true)
    (hget : docker.get_archive_ok = true) :
    (install_dependencies sys docker fs p out).1.toOption.isSome = true ∧
    Event.containerStop ∈ (install_dependencies sys docker fs p out).2 := by
  have hmem : "build" ∈ sys.docker_image_types p.deployment_name p.language := by
    simpa using hb
  cases hip : docker.image_present with
  | true =>
      constructor
      · simp [install_dependencies, hmem, hip, hm, ha, hput, hget, Except.toOption]
      · simp [install_dependencies, hmem, hip, hm, ha, hput, hget]
  | false =>
      rcases hi with h | h
      · rw [hip] at h; cases h
      · constructor
        · simp [install_dependencies, hmem, hip, h, hm, ha, hput, hget, Except.toOption]
        · simp [install_dependencies, hmem, hip, h, hm, ha, hput, hget]

/-- Witness for the amended C6: install script exits 1, transfer succeeds,
container is stopped. -/
theorem archive_container_stop_witness :
    c6_pkg.docker_copy_build_files = true ∧
    (c6_sys.docker_image_types "aws" .python).contains "build" = true ∧
    c6w_docker.exec_result.1 = 1 ∧
    Event.containerStop ∈
      (install_dependencies c6_sys c6w_docker c6_fs c6_pkg ["out", "b_code"]).2 :=
  ⟨rfl, rfl, rfl,
    (archive_container_stop c6_sys c6w_docker c6_fs c6_pkg ["out", "b_code"]
      rfl rfl (Or.inl rfl) rfl rfl rfl).2⟩

/-- C8 counterexample: with a build image configured but neither present nor
pullable, `build()` fails with a pull error even though no dependency
manifest exists anywhere (the image resolution happens before the manifest
check), contradicting "build() still succeeds". -/
theorem install_pull_before_manifest_cex :
    (exFS.files.all (fun f => f.name ≠ "requirements.txt")) = true ∧
    c6_sys.deployment_packages_python "aws" = [] ∧
    c8_run.1 = .error .pullError :=
  ⟨by decide, rfl, rfl⟩

/-- C8 amended: when no dependency manifest is present in the scratch
directory, the installer runs no container and leaves the filesystem (in
particular the scratch directory) unchanged, provided the image-resolution
step that precedes the manifest check does not itself fail; the trace is at
most a single image pull. -/
theorem install_skip_no_manifest (sys : SysConfig) (docker : DockerWorld)
    (fs : FS) (p : CodePackage) (out : List String)
    (hm : fs.fileExists out (PACKAGE_FILES p.language) = false)
    (hi : (sys.docker_image_types p.deployment_name p.language).contains "build"
        = true →
      docker.image_present = true ∨ docker.pull_ok = true) :
    (install_dependencies sys docker fs p out).1 = .ok fs ∧
    ((install_dependencies sys docker fs p out).2 = [] ∨
     (install_dependencies sys docker fs p out).2 = [Event.imagePull]) := by
  cases hc : (sys.docker_image_types p.deployment_name p.language).contains
      "build" with
  | false =>
      have hmem : ¬("build" ∈ sys.docker_image_types p.deployment_name p.language) := by
        simpa using hc
      simp [install_dependencies, hc, hmem]
  | true =>
      have hmem : "build" ∈ sys.docker_image_types p.deployment_name p.language := by
        simpa using hc
      cases hip : docker.image_present with
      | true => simp [install_dependencies, hmem, hip, hm]
      | false =>
          rcases hi hc with h | h
          · rw [hip] at h; cases h
          · simp [install_dependencies, hmem, hip, h, hm]

/-- Witness for the amended C8: image present locally, no manifest. -/
theorem install_skip_no_manifest_witness :
    exFS.fileExists ["out", "b_code"] (PACKAGE_FILES exPkg.language) = false ∧
    (install_dependencies c6_sys exDocker exFS exPkg ["out", "b_code"]).1 =
      .ok exFS :=
  ⟨rfl,
    (install_skip_no_manifest c6_sys exDocker exFS exPkg ["out", "b_code"] rfl
      (fun _ => Or.inl rfl)).1⟩

/-- Witness for the amended C7 on a three-entry archive with pairwise
distinct names and one entry named `"e"`. -/
theorem update_zip_roundtrip_witness :
    (c7_zip.entries.map (fun e => e.1)).Nodup ∧
    (c7_zip.entries.filter (fun e => e.1 = "e")).length = 1 ∧
    ((_update_zip c7_zip "e" "new").readEntry "e" = some "new" ∧
     (_update_zip c7_zip "e" "new").entries.filter (fun e => e.1 ≠ "e") =
       c7_zip.entries.filter (fun e => e.1 ≠ "e") ∧
     (_update_zip c7_zip "e" "new").entries.length = c7_zip.entries.length ∧
     ((_update_zip c7_zip "e" "new").entries.filter
       (fun e => e.1 = "e")).length = 1 ∧
     (_update_zip c7_zip "e" "new").comment = c7_zip.comment) :=
  ⟨by decide, by decide, update_zip_roundtrip c7_zip "e" "new" (by decide) (by decide)⟩

end SeBS
